import Mathlib

/-!
Verification of the agent-guardrail LLM proxy core.

The Go sources are embedded shallowly:
* `float64` values are modelled as rationals (the program only copies,
  compares and scales them by 100; every constant involved is exactly
  representable, so rational arithmetic mirrors the IEEE behaviour).
* Go maps are modelled as association lists; where the program iterates
  over a map, the list order stands for Go's (randomised) iteration order.
* Fallible remote calls are modelled as `Option` values.
-/

namespace Guardrail

/-- IntentSignal from `internal/analyzer/intent.go`: the semantic analysis
result returned by the heuristic analyzer and the sidecar client. -/
structure IntentSignal where
  intent : String := ""
  confidence : ℚ := 0
  action : String := ""
  domain : String := ""
  domainConfidence : ℚ := 0
  actionConfidence : ℚ := 0
  riskScore : ℚ := 0
  isAmbiguous : Bool := false
  sidecarDecision : String := ""
  sidecarReason : String := ""
deriving DecidableEq, Repr

/-- Signals from the analyzer types file: all deterministic security
signals. Field defaults are Go zero values. -/
structure Signals where
  pii : List String := []
  toxicity : ℚ := 0
  promptInjection : Bool := false
  topic : String := ""
  capabilities : List String := []
  userText : String := ""
  systemText : String := ""
  fullText : String := ""
deriving DecidableEq, Repr

/-- RequestInfo from the analyzer types file. -/
structure RequestInfo where
  streaming : Bool := false
  tokens : Int := 0
deriving DecidableEq, Repr

/-- AgentState from the analyzer types file. -/
structure AgentState where
  currentStep : Int := 0
  maxSteps : Int := 0
  totalTokens : Int := 0
  tokenBudget : Int := 0
deriving DecidableEq, Repr

/-- SourceData from the analyzer types file. -/
structure SourceData where
  origin : String := ""
  trusted : Bool := false
deriving DecidableEq, Repr

/-- Context from the analyzer types file: the structured input to Cedar
policy evaluation.  The fields `role`, `domain`, `domainConfidence`,
`action`, `actionConfidence` and `analyzerFailed` are the operational
fields the proxy handler reads and writes on the same struct
(`handler.go` uses `ctx.Role`, `ctx.Domain`, `ctx.DomainConfidence`,
`ctx.Action`, `ctx.ActionConfidence`, `ctx.AnalyzerFailed`). -/
structure Context where
  intent : String := ""
  userIntent : String := ""
  systemIntent : String := ""
  riskScore : ℚ := 0
  confidence : ℚ := 0
  resourceSensitivity : String := ""
  signals : Signals := {}
  request : RequestInfo := {}
  agentState : AgentState := {}
  sourceData : SourceData := {}
  provider : String := ""
  role : String := ""
  domain : String := ""
  domainConfidence : ℚ := 0
  action : String := ""
  actionConfidence : ℚ := 0
  analyzerFailed : Bool := false
deriving DecidableEq, Repr

/-- RiskFromIntent from `internal/analyzer/intent.go`: returns the
confidence as the risk signal (intent-specific weighting lives in
policy, not code). -/
def RiskFromIntent (_intent : String) (confidence : ℚ) : ℚ :=
  confidence

/-- The role switch at the top of AttachIntent: role `user` / `system`
sets the role-specific intent, any other role leaves both unchanged. -/
def Context.setRoleIntent (c : Context) (sig : IntentSignal) (role : String) : Context :=
  if role = "user" then { c with userIntent := sig.intent }
  else if role = "system" then { c with systemIntent := sig.intent }
  else c

/-- AttachIntent from the analyzer context file: adds an intent signal to
the context.  Role `user` / `system` sets the role-specific intent;
the aggregate fields update iff the derived risk is at least the stored
risk score or the stored intent is empty. -/
def Context.AttachIntent (c : Context) (sig : IntentSignal) (role : String) : Context :=
  let c := c.setRoleIntent sig role
  let currentRisk := RiskFromIntent sig.intent sig.confidence
  if currentRisk ≥ c.riskScore ∨ c.intent = "" then
    { c with intent := sig.intent, confidence := sig.confidence, riskScore := currentRisk }
  else
    c

theorem setRoleIntent_riskScore (c : Context) (sig : IntentSignal) (role : String) :
    (c.setRoleIntent sig role).riskScore = c.riskScore := by
  unfold Context.setRoleIntent; split <;> [rfl; split <;> rfl]

theorem setRoleIntent_intent (c : Context) (sig : IntentSignal) (role : String) :
    (c.setRoleIntent sig role).intent = c.intent := by
  unfold Context.setRoleIntent; split <;> [rfl; split <;> rfl]

/-- Applies a sequence of `AttachIntent` calls (signal, role) to a context. -/
def applyAttach (c : Context) (l : List (IntentSignal × String)) : Context :=
  l.foldl (fun c p => c.AttachIntent p.1 p.2) c

/-- The freshly constructed context (all fields Go zero values). -/
def freshContext : Context := {}

theorem attachIntent_riskScore (c : Context) (sig : IntentSignal) (role : String)
    (hc : c.intent ≠ "") :
    (c.AttachIntent sig role).riskScore
      = max c.riskScore (RiskFromIntent sig.intent sig.confidence) := by
  unfold Context.AttachIntent
  dsimp only
  rw [setRoleIntent_riskScore, setRoleIntent_intent]
  split
  case isTrue h =>
    rcases h with h | h
    · exact (max_eq_right h).symm
    · exact absurd h hc
  case isFalse h =>
    push_neg at h
    rw [setRoleIntent_riskScore]
    exact (max_eq_left h.1.le).symm

theorem attachIntent_intent_ne (c : Context) (sig : IntentSignal) (role : String)
    (hc : c.intent ≠ "") (hs : sig.intent ≠ "") :
    (c.AttachIntent sig role).intent ≠ "" := by
  unfold Context.AttachIntent
  dsimp only
  rw [setRoleIntent_riskScore, setRoleIntent_intent]
  split
  · exact hs
  · rw [setRoleIntent_intent]; exact hc

theorem applyAttach_riskScore (l : List (IntentSignal × String)) (c : Context)
    (hc : c.intent ≠ "") (hl : ∀ p ∈ l, p.1.intent ≠ "") :
    (applyAttach c l).riskScore
      = (l.map fun p => RiskFromIntent p.1.intent p.1.confidence).foldl max c.riskScore
    ∧ (applyAttach c l).intent ≠ "" := by
  induction l generalizing c with
  | nil => exact ⟨rfl, hc⟩
  | cons p rest ih =>
    have hp : p.1.intent ≠ "" := hl p (List.mem_cons_self p rest)
    have hrest : ∀ q ∈ rest, q.1.intent ≠ "" := fun q hq => hl q (List.mem_cons_of_mem p hq)
    have h1 := attachIntent_riskScore c p.1 p.2 hc
    have h2 := attachIntent_intent_ne c p.1 p.2 hc hp
    have := ih (c.AttachIntent p.1 p.2) h2 hrest
    simpa [applyAttach, h1] using this

theorem foldl_max_le_foldl_max_append (xs ys : List ℚ) (a : ℚ) :
    xs.foldl max a ≤ (xs ++ ys).foldl max a := by
  rw [List.foldl_append]
  induction ys generalizing xs with
  | nil => simp
  | cons y ys ih =>
    calc xs.foldl max a ≤ max (xs.foldl max a) y := le_max_left _ _
    _ ≤ _ := by simpa using ih (xs ++ [y])

theorem attachIntent_riskScore_of_empty (c : Context) (sig : IntentSignal) (role : String)
    (hc : c.intent = "") :
    (c.AttachIntent sig role).riskScore = RiskFromIntent sig.intent sig.confidence := by
  unfold Context.AttachIntent
  dsimp only
  rw [setRoleIntent_intent]
  split
  · rfl
  · next h => exact absurd (Or.inr hc) h

theorem attachIntent_intent_of_empty (c : Context) (sig : IntentSignal) (role : String)
    (hc : c.intent = "") :
    (c.AttachIntent sig role).intent = sig.intent := by
  unfold Context.AttachIntent
  dsimp only
  rw [setRoleIntent_intent]
  split
  · rfl
  · next h => exact absurd (Or.inr hc) h

/-- C5 counterexample: `AttachIntent` with role `user` overwrites the stored
`userIntent` even when the new signal's derived risk (0.1) is strictly lower
than the risk at which the stored value was attached (0.9). -/
theorem C5_counterexample :
    letI c0 := freshContext.AttachIntent { intent := "code.exploit", confidence := 0.9 } "user"
    letI c1 := c0.AttachIntent { intent := "conv.greeting", confidence := 0.1 } "user"
    c0.userIntent = "code.exploit" ∧ c0.riskScore = 0.9
      ∧ RiskFromIntent "conv.greeting" 0.1 < c0.riskScore
      ∧ c1.userIntent = "conv.greeting" := by
  refine ⟨?_, ?_, ?_, ?_⟩ <;>
      norm_num [RiskFromIntent, freshContext, Context.AttachIntent, Context.setRoleIntent] <;>
    (split <;> rfl)

/-- C5 (amended): `AttachIntent` with role `user` (respectively `system`)
always overwrites the stored role-specific intent with the new signal's
intent, regardless of the derived risk; only the aggregate `intent`,
`confidence` and `riskScore` fields are guarded by the risk comparison. -/
theorem C5_role_intent_always_overwritten (c : Context) (sig : IntentSignal) :
    (c.AttachIntent sig "user").userIntent = sig.intent
      ∧ (c.AttachIntent sig "system").systemIntent = sig.intent := by
  constructor
  · unfold Context.AttachIntent Context.setRoleIntent
    dsimp only
    rw [if_pos rfl]
    split <;> rfl
  · unfold Context.AttachIntent Context.setRoleIntent
    dsimp only
    rw [if_neg (by decide : ¬ ("system" : String) = "user"), if_pos rfl]
    split <;> rfl

/-- C5 witness: the amended overwrite law evaluated at a concrete context
that already stores a high-risk user intent. -/
theorem C5_witness :
    letI c0 := freshContext.AttachIntent { intent := "code.exploit", confidence := 0.9 } "user"
    letI sig : IntentSignal := { intent := "conv.greeting", confidence := 0.1 }
    (c0.AttachIntent sig "user").userIntent = "conv.greeting"
      ∧ (c0.AttachIntent sig "system").systemIntent = "conv.greeting" :=
  C5_role_intent_always_overwritten _ _

/-- C6 counterexample: the stored risk score is not non-decreasing for every
sequence of `AttachIntent` calls: attaching a signal with empty intent and
confidence 0.9, then a signal with intent `conv.other` and confidence 0.2,
drops the risk score from 0.9 to 0.2 (the empty stored intent re-enables the
`c.intent == ""` update branch). -/
theorem C6_counterexample :
    letI c1 := freshContext.AttachIntent { intent := "", confidence := 0.9 } "aggregate"
    letI c2 := c1.AttachIntent { intent := "conv.other", confidence := 0.2 } "user"
    c1.riskScore = 0.9 ∧ c2.riskScore = 0.2 ∧ c2.riskScore < c1.riskScore := by
  refine ⟨?_, ?_, ?_⟩ <;>
    norm_num [RiskFromIntent, freshContext, Context.AttachIntent, Context.setRoleIntent]

/-- C6 (amended): starting from a freshly constructed context, for every
sequence of `AttachIntent` calls in which each attached signal has a
non-empty intent and a non-negative confidence (true of every handler call
site, since sidecar intents are taxonomy-validated and the heuristic only
attaches non-empty intents), the stored risk score equals the maximum
derived risk over all attachments so far and is non-decreasing along the
sequence. -/
theorem C6_riskScore_max_monotone (l : List (IntentSignal × String))
    (h : ∀ p ∈ l, p.1.intent ≠ "" ∧ 0 ≤ p.1.confidence) :
    (applyAttach freshContext l).riskScore
      = (l.map fun p => RiskFromIntent p.1.intent p.1.confidence).foldl max 0
    ∧ ∀ l1 l2, l = l1 ++ l2 →
        (applyAttach freshContext l1).riskScore ≤ (applyAttach freshContext l).riskScore := by
  have key : ∀ m : List (IntentSignal × String), (∀ p ∈ m, p.1.intent ≠ "" ∧ 0 ≤ p.1.confidence) →
      (applyAttach freshContext m).riskScore
        = (m.map fun p => RiskFromIntent p.1.intent p.1.confidence).foldl max 0 := by
    intro m hm
    cases m with
    | nil => rfl
    | cons p rest =>
      have hp := hm p (List.mem_cons_self p rest)
      have hrest : ∀ q ∈ rest, q.1.intent ≠ "" := fun q hq => (hm q (List.mem_cons_of_mem p hq)).1
      have hstep : (freshContext.AttachIntent p.1 p.2).riskScore
          = RiskFromIntent p.1.intent p.1.confidence :=
        attachIntent_riskScore_of_empty _ _ _ rfl
      have hne : (freshContext.AttachIntent p.1 p.2).intent ≠ "" := by
        rw [attachIntent_intent_of_empty _ _ _ rfl]
        exact hp.1
      have hmain := (applyAttach_riskScore rest (freshContext.AttachIntent p.1 p.2) hne hrest).1
      have : (applyAttach freshContext (p :: rest)).riskScore
          = (rest.map fun q => RiskFromIntent q.1.intent q.1.confidence).foldl max
              (RiskFromIntent p.1.intent p.1.confidence) := by
        simpa [applyAttach, hstep] using hmain
      rw [this, List.map_cons, List.foldl_cons]
      have h0 : max 0 (RiskFromIntent p.1.intent p.1.confidence)
          = RiskFromIntent p.1.intent p.1.confidence :=
        max_eq_right hp.2
      rw [h0]
  refine ⟨key l h, ?_⟩
  intro l1 l2 hsplit
  subst hsplit
  have h1 : ∀ p ∈ l1, p.1.intent ≠ "" ∧ 0 ≤ p.1.confidence :=
    fun p hp => h p (List.mem_append_left l2 hp)
  rw [key _ h, key _ h1, List.map_append]
  exact foldl_max_le_foldl_max_append _ _ _

/-- C6 witness: the amended risk law evaluated on a concrete two-signal
sequence (greeting at 0.95, then exploit at 0.9 — the risk stays 0.95). -/
theorem C6_witness :
    (applyAttach freshContext
        [({ intent := "conv.greeting", confidence := 0.95 }, "user"),
         ({ intent := "code.exploit", confidence := 0.9 }, "aggregate")]).riskScore
      = ([({ intent := "conv.greeting", confidence := 0.95 : IntentSignal }, "user"),
          ({ intent := "code.exploit", confidence := 0.9 }, "aggregate")].map
            fun p => RiskFromIntent p.1.intent p.1.confidence).foldl max 0 :=
  (C6_riskScore_max_monotone _
    (by intro p hp; fin_cases hp <;> exact ⟨by decide, by norm_num⟩)).1

/-! ## Heuristic intent and topic classifier (`internal/analyzer/heuristic.go`) -/

/-- Lower-casing by character map (models the `(?i)` regexp flag and is
kernel-computable, unlike the byte-position `String.toLower`). -/
def toLowerStr (s : String) : String := ⟨s.toList.map Char.toLower⟩

/-- Whitespace trim on both ends, modelling Go's `strings.TrimSpace`. -/
def trimStr (s : String) : String :=
  ⟨((s.toList.dropWhile Char.isWhitespace).reverse.dropWhile Char.isWhitespace).reverse⟩

/-- Word characters of Go's regexp `\b` boundary: `[0-9A-Za-z_]`. -/
def isWordChar (c : Char) : Bool := c.isAlphanum || c == '_'

/-- The maximal word-character runs of a string (lower-cased), used to model
the compiled per-keyword regex `(?i)\b<keyword>\b` for the alphanumeric
single-word keywords the topic tables hold. -/
def wordsOf (s : String) : List (List Char) :=
  ((toLowerStr s).toList.splitOnP (fun c => !isWordChar c)).filter (· ≠ [])

/-- Keyword match under word boundaries, case-insensitive: models
`regexp.MatchString` of the compiled `(?i)\b<QuoteMeta(kw)>\b`. -/
def kwMatch (kw text : String) : Bool :=
  (wordsOf text).contains (toLowerStr kw).toList

/-- The number of distinct keyword hits of one topic's keyword list. -/
def topicCount (kws : List String) (text : String) : Nat :=
  (kws.filter (fun kw => kwMatch kw text)).length

/-- DetectTopic from `heuristic.go`: best-count scan over the configured
topics.  The list order of `topics` models Go's (randomised) map iteration
order over `h.topics`. -/
def DetectTopic (topics : List (String × List String)) (text : String) : String :=
  let trimmed := trimStr text
  (topics.foldl
    (fun (best : String × Nat) t =>
      let matchCount := topicCount t.2 trimmed
      if matchCount > best.2 then (t.1, matchCount) else best)
    ("", 0)).1

/-- HeuristicAnalyzer: the three fast-path regexes are modelled as abstract
text predicates (their pattern sets are data; no claim depends on their
contents), the topic table as an association list. -/
structure HeuristicAnalyzer where
  greeter : String → Bool
  exploit : String → Bool
  sysCtrl : String → Bool
  topics : List (String × List String)

/-- Analyze from `heuristic.go`: returns an IntentSignal on a
high-confidence match, the `unknown`/1.0 signal on empty trimmed text,
`none` otherwise. -/
def HeuristicAnalyzer.Analyze (h : HeuristicAnalyzer) (text : String) : Option IntentSignal :=
  let trimmed := trimStr text
  if trimmed = "" then some { intent := "unknown", confidence := 1, action := "" }
  else if h.greeter trimmed then some { intent := "conv.greeting", confidence := 0.95, action := "greeting" }
  else if h.exploit trimmed then some { intent := "code.exploit", confidence := 0.90, action := "exploit" }
  else if h.sysCtrl trimmed then some { intent := "sys.control", confidence := 0.95, action := "control" }
  else none

/-- AnalyzeWithDomain from `heuristic.go`: combines intent detection with
topic detection. -/
def HeuristicAnalyzer.AnalyzeWithDomain (h : HeuristicAnalyzer) (text : String) :
    Option IntentSignal :=
  let sig := h.Analyze text
  let domain := DetectTopic h.topics text
  match sig with
  | some s =>
      some { s with domain := domain,
                    domainConfidence := if domain ≠ "" then 0.90 else s.domainConfidence }
  | none =>
      if domain ≠ "" then some { domain := domain, domainConfidence := 0.90 } else none

/-- ActionForIntent from `heuristic.go`: the canonical intent-to-action map
(`intentToAction`); unmapped intents and `unknown` yield the empty string. -/
def ActionForIntent (intent : String) : String :=
  if intent = "info.query" then "query"
  else if intent = "info.query.pii" then "query"
  else if intent = "info.summarize" then "summarize"
  else if intent = "code.generate" then "generate"
  else if intent = "code.exploit" then "exploit"
  else if intent = "tool.safe" then "tool"
  else if intent = "tool.dangerous" then "tool"
  else if intent = "file.read" then "read"
  else if intent = "file.write" then "write"
  else if intent = "sys.control" then "control"
  else if intent = "conv.greeting" then "greeting"
  else if intent = "conv.other" then "other"
  else ""

/-! ## Sidecar intent validation (`internal/analyzer/intent_analyzer.go`) -/

/-- isValidIntent from the intent analyzer client: membership in the
hierarchical taxonomy constants, plus `safety.toxicity` (added to support
the sidecar's toxicity label). -/
def isValidIntent (intent : String) : Bool :=
  intent = "info.query" || intent = "info.query.pii" || intent = "info.summarize" ||
  intent = "code.generate" || intent = "code.exploit" ||
  intent = "tool.safe" || intent = "tool.dangerous" ||
  intent = "file.read" || intent = "file.write" ||
  intent = "sys.control" ||
  intent = "conv.greeting" || intent = "conv.other" ||
  intent = "safety.toxicity" ||
  intent = "unknown"

/-- The validation step of `callSidecar`: any decoded signal whose intent is
not accepted by `isValidIntent` is coerced to `unknown` before being cached
and returned. -/
def validateSidecarSignal (sig : IntentSignal) : IntentSignal :=
  if isValidIntent sig.intent then sig else { sig with intent := "unknown" }

/-- The fixed thirteen-element intent taxonomy of the specification glossary
(spec-side definition, used to compare the code's validator against the
spec's closure claim). -/
def intentTaxonomy : List String :=
  ["info.query", "info.query.pii", "info.summarize", "code.generate", "code.exploit",
   "tool.safe", "tool.dangerous", "file.read", "file.write", "sys.control",
   "conv.greeting", "conv.other", "unknown"]

theorem detectTopic_foldl_stay (t : String) (cnt : Nat) (text : String)
    (l : List (String × List String))
    (hlt : ∀ p ∈ l, p.1 ≠ t → topicCount p.2 text < cnt)
    (heq : ∀ p ∈ l, p.1 = t → topicCount p.2 text = cnt) :
    l.foldl
      (fun (best : String × Nat) p =>
        let matchCount := topicCount p.2 text
        if matchCount > best.2 then (p.1, matchCount) else best)
      (t, cnt) = (t, cnt) := by
  induction l with
  | nil => rfl
  | cons p rest ih =>
    have hstep :
        (let matchCount := topicCount p.2 text
         if matchCount > (t, cnt).2 then (p.1, matchCount) else (t, cnt)) = (t, cnt) := by
      dsimp only
      by_cases hpt : p.1 = t
      · rw [heq p (List.mem_cons_self p rest) hpt]
        simp
      · rw [if_neg (by simpa using (hlt p (List.mem_cons_self p rest) hpt).not_lt)]
    rw [List.foldl_cons, hstep]
    exact ih (fun q hq => hlt q (List.mem_cons_of_mem p hq))
      (fun q hq => heq q (List.mem_cons_of_mem p hq))

theorem detectTopic_foldl_reach (t : String) (cnt : Nat) (text : String)
    (l : List (String × List String)) (b : String × Nat)
    (hmem : ∃ kws, (t, kws) ∈ l)
    (hlt : ∀ p ∈ l, p.1 ≠ t → topicCount p.2 text < cnt)
    (heq : ∀ p ∈ l, p.1 = t → topicCount p.2 text = cnt)
    (hb : b.2 < cnt) :
    l.foldl
      (fun (best : String × Nat) p =>
        let matchCount := topicCount p.2 text
        if matchCount > best.2 then (p.1, matchCount) else best)
      b = (t, cnt) := by
  induction l generalizing b with
  | nil => obtain ⟨kws, hk⟩ := hmem; cases hk
  | cons p rest ih =>
    rw [List.foldl_cons]
    by_cases hpt : p.1 = t
    · have hcnt : topicCount p.2 text = cnt := heq p (List.mem_cons_self p rest) hpt
      have hgt : topicCount p.2 text > b.2 := by rw [hcnt]; exact hb
      have hstep :
          (let matchCount := topicCount p.2 text
           if matchCount > b.2 then (p.1, matchCount) else b) = (t, cnt) := by
        dsimp only
        rw [if_pos hgt, hpt, hcnt]
      rw [hstep]
      exact detectTopic_foldl_stay t cnt text rest
        (fun q hq => hlt q (List.mem_cons_of_mem p hq))
        (fun q hq => heq q (List.mem_cons_of_mem p hq))
    · have hub : topicCount p.2 text < cnt := hlt p (List.mem_cons_self p rest) hpt
      have hmem' : ∃ kws, (t, kws) ∈ rest := by
        obtain ⟨kws, hk⟩ := hmem
        rcases List.mem_cons.1 hk with h | h
        · exact absurd (congrArg Prod.fst h).symm hpt
        · exact ⟨kws, h⟩
      have hb' :
          (let matchCount := topicCount p.2 text
           if matchCount > b.2 then (p.1, matchCount) else b).2 < cnt := by
        dsimp only
        split
        · exact hub
        · exact hb
      exact ih _ hmem'
        (fun q hq => hlt q (List.mem_cons_of_mem p hq))
        (fun q hq => heq q (List.mem_cons_of_mem p hq)) hb'

/-- C4 counterexample: on a tie for the highest distinct-keyword count,
`DetectTopic` does not return the empty string — it returns whichever tied
topic the (randomised) map iteration order presents first, as witnessed by
the two enumeration orders of the same two-topic table. -/
theorem C4_counterexample :
    letI table : List (String × List String) := [("alpha", ["x"]), ("beta", ["y"])]
    topicCount ["x"] (trimStr "x y") = topicCount ["y"] (trimStr "x y")
      ∧ DetectTopic table "x y" = "alpha"
      ∧ DetectTopic table.reverse "x y" = "beta"
      ∧ DetectTopic table "x y" ≠ "" := by decide

/-- C4 (amended): for every topic table, every iteration order of it, and
every text, when one topic's count of distinct matching keywords
(word-boundary, case-insensitive) is positive and strictly greater than
every other topic's count, `DetectTopic` returns that topic; on a tie for
the highest count it returns the first tied topic in iteration order (an
arbitrary tied topic under Go's randomised map order), not the empty
string. -/
theorem C4_strict_count_winner (topics : List (String × List String)) (text : String)
    (t : String) (kws : List String)
    (hmem : (t, kws) ∈ topics)
    (hpos : 0 < topicCount kws (trimStr text))
    (hlt : ∀ p ∈ topics, p.1 ≠ t → topicCount p.2 (trimStr text) < topicCount kws (trimStr text))
    (heq : ∀ p ∈ topics, p.1 = t → topicCount p.2 (trimStr text) = topicCount kws (trimStr text)) :
    DetectTopic topics text = t := by
  unfold DetectTopic
  dsimp only
  rw [detectTopic_foldl_reach t (topicCount kws (trimStr text)) (trimStr text) topics ("", 0)
    ⟨kws, hmem⟩ hlt heq hpos]

/-- C4 witness: the spec's topic-drift scenario — two political keyword
hits versus one recruitment hit yield the political topic. -/
theorem C4_witness :
    DetectTopic [("politics", ["vote", "election"]), ("recruitment", ["hiring"])]
      "vote election hiring" = "politics" :=
  C4_strict_count_winner _ _ "politics" ["vote", "election"]
    (by decide) (by decide) (by decide) (by decide)

/-- C7 counterexample: the validator accepts `safety.toxicity`, which is
neither a member of the fixed thirteen-element taxonomy nor the literal
`unknown`, so a sidecar response carrying it is attached and cached
unchanged. -/
theorem C7_counterexample :
    (validateSidecarSignal { intent := "safety.toxicity" }).intent = "safety.toxicity"
      ∧ "safety.toxicity" ∉ intentTaxonomy
      ∧ "safety.toxicity" ≠ "unknown" := by decide

/-- C7 (amended): every sidecar signal is coerced before caching/attachment
so that its intent is a member of the fixed thirteen-element taxonomy, the
extra whitelisted label `safety.toxicity`, or the literal `unknown` (which
the taxonomy already contains). -/
theorem C7_taxonomy_closure (sig : IntentSignal) :
    (validateSidecarSignal sig).intent ∈ intentTaxonomy
      ∨ (validateSidecarSignal sig).intent = "safety.toxicity" := by
  unfold validateSidecarSignal
  split
  case isTrue h =>
    simp only [isValidIntent, Bool.or_eq_true, decide_eq_true_eq] at h
    rcases h with ((((((((((((h | h) | h) | h) | h) | h) | h) | h) | h) | h) | h) | h) | h) | h <;>
      simp [intentTaxonomy, h]
  case isFalse _ =>
    left
    simp [intentTaxonomy]

/-! ## PII detector (`internal/analyzer/pii.go`)

Each Go regexp is modelled as an executable existence-of-a-match scanner
over the character list.  `\b` is the Go regexp word boundary
(word characters `[0-9A-Za-z_]`). -/

/-- Local-part characters of `emailRegex`: `[A-Za-z0-9._%+-]`. -/
def isLocalChar (c : Char) : Bool :=
  c.isAlphanum || c == '.' || c == '_' || c == '%' || c == '+' || c == '-'

/-- Domain characters of `emailRegex`: `[A-Za-z0-9.-]`. -/
def isDomainChar (c : Char) : Bool := c.isAlphanum || c == '.' || c == '-'

/-- Matches the part of `emailRegex` after the `@`:
`[A-Za-z0-9.-]+\.[A-Za-z]{2,}`.  `seen` records whether at least one domain
character precedes the current position. -/
def emailDomain : List Char → Bool → Bool
  | [], _ => false
  | c :: rest, seen =>
      (seen && c == '.' &&
        (match rest with | a :: b :: _ => a.isAlpha && b.isAlpha | _ => false))
      || (isDomainChar c && emailDomain rest true)

/-- Existence of a match of `emailRegex`:
`(?i)[A-Za-z0-9._%+-]+@[A-Za-z0-9.-]+\.[A-Za-z]{2,}` (the character
classes already cover both cases, so `(?i)` is inert). -/
def emailScan : List Char → Bool
  | [] => false
  | c :: rest =>
      (isLocalChar c &&
        (match rest with | '@' :: rest2 => emailDomain rest2 false | _ => false))
      || emailScan rest

/-- The `[\s.-]` separator class of `phoneRegex`. -/
def isPhoneSep (c : Char) : Bool := c.isWhitespace || c == '.' || c == '-'

/-- Consumes exactly `n` digits, returning the remainder. -/
def digitsExact : Nat → List Char → Option (List Char)
  | 0, cs => some cs
  | _ + 1, [] => none
  | n + 1, c :: cs => if c.isDigit then digitsExact n cs else none

/-- Both remainders after optionally consuming one character satisfying `p`. -/
def optConsume (p : Char → Bool) : List Char → List (List Char)
  | [] => [[]]
  | c :: rest => if p c then [c :: rest, rest] else [c :: rest]

/-- Existence of a match of `phoneRegex`
`(\+\d{1,2}\s?)?1?\-?\.?\s?\(?\d{3}\)?[\s.-]?\d{3}[\s.-]?\d{4}` at the head
of the list.  Every prefix element is optional and the regexp is
unanchored, so a match exists iff the mandatory core
`\d{3}\)?[\s.-]?\d{3}[\s.-]?\d{4}` matches somewhere. -/
def phoneCore (cs : List Char) : Bool :=
  match digitsExact 3 cs with
  | none => false
  | some cs1 =>
      (optConsume (· == ')') cs1).any fun cs1' =>
        (optConsume isPhoneSep cs1').any fun cs2 =>
          match digitsExact 3 cs2 with
          | none => false
          | some cs3 =>
              (optConsume isPhoneSep cs3).any fun cs4 => (digitsExact 4 cs4).isSome

/-- Unanchored scan for `phoneRegex`. -/
def phoneScan : List Char → Bool
  | [] => false
  | c :: rest => phoneCore (c :: rest) || phoneScan rest

/-- Matches `ssnRegex` `\b\d{3}-\d{2}-\d{4}\b` at the head of the list
(the leading boundary is checked by the caller, the trailing boundary
here). -/
def ssnAt : List Char → Bool
  | a :: b :: c :: '-' :: d :: e :: '-' :: f :: g :: h :: i :: rest =>
      a.isDigit && b.isDigit && c.isDigit && d.isDigit && e.isDigit &&
      f.isDigit && g.isDigit && h.isDigit && i.isDigit &&
      (match rest with | [] => true | x :: _ => !isWordChar x)
  | _ => false

/-- Unanchored scan for `ssnRegex`; `bound` records whether the current
position sits at a word boundary (start of text or after a non-word
character). -/
def ssnScan : Bool → List Char → Bool
  | _, [] => false
  | bound, c :: rest => (bound && ssnAt (c :: rest)) || ssnScan (!isWordChar c) rest

/-- Search for the tail of `creditCardRegex` `\b(?:\d[ -]*?){13,16}\b`
after `done` digits have been consumed; `lastWord` is the wordness of the
last consumed character (for the trailing `\b`).  The quantifiers only
affect which match is preferred, not whether one exists, so the
disjunctive search decides `MatchString`. -/
def ccGroups : List Char → Nat → Bool → Bool
  | [], done, lastWord => decide (13 ≤ done) && decide (done ≤ 16) && lastWord
  | c :: rest, done, lastWord =>
      (decide (13 ≤ done) && decide (done ≤ 16) && (isWordChar c != lastWord))
      || (decide (done < 16) && c.isDigit && ccGroups rest (done + 1) true)
      || (decide (1 ≤ done) && (c == ' ' || c == '-') && ccGroups rest done false)

/-- Unanchored scan for `creditCardRegex`, tracking the leading `\b`. -/
def ccScan : Bool → List Char → Bool
  | _, [] => false
  | bound, c :: rest =>
      (bound && c.isDigit && ccGroups rest 1 true) || ccScan (!isWordChar c) rest

/-- Detect from `pii.go`: the list of detected PII kinds.  Go collects the
kinds in a map and emits them in (randomised) map order; the handler only
tests membership, so the fixed order below is observationally faithful. -/
def detectPII (text : String) : List String :=
  (if emailScan text.toList then ["email"] else []) ++
  (if phoneScan text.toList then ["phone"] else []) ++
  (if ssnScan true text.toList then ["ssn"] else []) ++
  (if ccScan true text.toList then ["credit_card"] else [])

/-! ## Egress output scan (`internal/proxy/handler.go`, output-side guardrails) -/

/-- Outcome of the output-side guardrail block: either a structured 403
with the `X-Guardrail-Output-Blocked: true` header (the upstream body is
never written), or a pass-through of the unmodified upstream body. -/
inductive EgressOutcome where
  | blocked (status : Nat) (code : String) (outputBlockedHeader : Bool)
  | pass (body : String)
deriving DecidableEq, Repr

/-- The output-side guardrail of the handler: scans the parsed assistant
content with the PII detector, returns 403 `output_guardrail_blocked` when
a critical kind (ssn, credit card) is present, otherwise logs and passes
the upstream body through unchanged. -/
def egressScan (respBody responseContent : String) : EgressOutcome :=
  if responseContent ≠ "" &&
      (detectPII responseContent).any (fun t => t == "ssn" || t == "credit_card") then
    .blocked 403 "output_guardrail_blocked" true
  else
    .pass respBody

/-- C8: for every upstream response whose parsed assistant content contains
PII of kind ssn or credit_card, the handler returns 403
`output_guardrail_blocked` with `X-Guardrail-Output-Blocked: true` and the
upstream body is never written to the client; content whose detected kinds
exclude both critical kinds (for example only email or phone) is logged
and passed through unchanged. -/
theorem C8_egress_blocks_critical_pii (respBody content : String) :
    (("ssn" ∈ detectPII content ∨ "credit_card" ∈ detectPII content) →
        egressScan respBody content = .blocked 403 "output_guardrail_blocked" true)
    ∧ (("ssn" ∉ detectPII content ∧ "credit_card" ∉ detectPII content) →
        egressScan respBody content = .pass respBody) := by
  constructor
  · intro hmem
    have hne : content ≠ "" := by
      intro hc
      subst hc
      simp [detectPII, emailScan, phoneScan, ssnScan, ccScan] at hmem
    have hany : (detectPII content).any (fun t => t == "ssn" || t == "credit_card") = true := by
      rcases hmem with h | h
      · exact List.any_eq_true.2 ⟨"ssn", h, by decide⟩
      · exact List.any_eq_true.2 ⟨"credit_card", h, by decide⟩
    unfold egressScan
    rw [if_pos (by simp [hne, hany])]
  · intro ⟨h1, h2⟩
    have hany : (detectPII content).any (fun t => t == "ssn" || t == "credit_card") = false := by
      rw [List.any_eq_false]
      intro t ht
      simp only [Bool.or_eq_true, beq_iff_eq] at *
      push_neg
      exact ⟨fun e => h1 (e ▸ ht), fun e => h2 (e ▸ ht)⟩
    unfold egressScan
    rw [if_neg (by simp [hany])]

/-- C8 witness: the spec's egress scenario — assistant content
`SSN 123-45-6789` is blocked, while content carrying only an email address
passes through with the upstream body untouched. -/
theorem C8_witness :
    egressScan "fullbody" "SSN 123-45-6789"
        = .blocked 403 "output_guardrail_blocked" true
      ∧ egressScan "fullbody" "reach me at alice@acme.com" = .pass "fullbody" :=
  ⟨(C8_egress_blocks_critical_pii "fullbody" "SSN 123-45-6789").1 (Or.inl (by decide)),
   (C8_egress_blocks_critical_pii "fullbody" "reach me at alice@acme.com").2
     ⟨by decide, by decide⟩⟩

/-! ## Role pre-gate (`internal/proxy/handler.go`, `enforceRolePolicy`)

The deny reasons reproduce the source strings except that the formatted
confidence values of the two threshold messages are omitted (numeric
formatting is irrelevant to every claim). -/

/-- RoleConfig from `internal/policy/types.go` (plus `allow_intents`, which
the compiler reads). -/
structure RoleConfig where
  description : String := ""
  allowActions : List String := []
  allowIntents : List String := []
  allowedTopics : List String := []
  blockIntents : List String := []
  blockTopics : List String := []
  domainConfidenceThreshold : ℚ := 0
  actionConfidenceThreshold : ℚ := 0
deriving DecidableEq, Repr

/-- The domain the gate enforces on: `ctx.Domain`, falling back to the
legacy `ctx.Signals.Topic`. -/
def roleDomainValue (ctx : Context) : String :=
  if ctx.domain = "" then ctx.signals.topic else ctx.domain

/-- Gate blocks 2–3 of `enforceRolePolicy`: domain allowlist and domain
confidence. -/
def roleDomainCheck (roleCfg : RoleConfig) (ctx : Context) (domainThreshold : ℚ) :
    Option (String × String) :=
  if roleCfg.allowedTopics.isEmpty then none
  else
    let domain := roleDomainValue ctx
    if domain = "" then
      some ("DENY", "Unknown domain — denied for constrained role '" ++ ctx.role ++ "'")
    else if !(roleCfg.allowedTopics.contains domain) then
      some ("DENY", "Domain '" ++ domain ++ "' not allowed for role '" ++ ctx.role ++ "'")
    else if 0 < ctx.domainConfidence ∧ ctx.domainConfidence < domainThreshold then
      some ("DENY", "Domain confidence below threshold for role '" ++ ctx.role ++ "'")
    else none

/-- Gate block 4 of `enforceRolePolicy`: explicit topic blocks. -/
def roleTopicBlockCheck (roleCfg : RoleConfig) (ctx : Context) : Option (String × String) :=
  if roleCfg.blockTopics.isEmpty then none
  else
    let domain := roleDomainValue ctx
    if domain ≠ "" ∧ roleCfg.blockTopics.contains domain then
      some ("DENY", "Domain '" ++ domain ++ "' explicitly blocked for role '" ++ ctx.role ++ "'")
    else none

/-- Gate blocks 5–6 of `enforceRolePolicy`: action allowlist and action
confidence. -/
def roleActionCheck (roleCfg : RoleConfig) (ctx : Context) (isConstrained : Bool)
    (actionThreshold : ℚ) : Option (String × String) :=
  if roleCfg.allowActions.isEmpty then none
  else
    let action := if ctx.action = "" then ActionForIntent ctx.intent else ctx.action
    if action = "" ∧ isConstrained = true then
      some ("DENY", "Unknown action — denied for constrained role '" ++ ctx.role ++ "'")
    else if action ≠ "" ∧ !(roleCfg.allowActions.contains action) then
      some ("DENY", "Action '" ++ action ++ "' not allowed for role '" ++ ctx.role ++ "'")
    else if 0 < ctx.actionConfidence ∧ ctx.actionConfidence < actionThreshold then
      some ("DENY", "Action confidence below threshold for role '" ++ ctx.role ++ "'")
    else none

/-- enforceRolePolicy from `handler.go`: Go-level role-domain and
role-action enforcement run before Cedar.  Returns `("DENY", reason)` or
`("ALLOW", "")`. -/
def enforceRolePolicy (policyRoles : Option (List (String × RoleConfig))) (ctx : Context) :
    String × String :=
  match policyRoles with
  | none => ("ALLOW", "")
  | some rolesList =>
    if ctx.role = "" then ("ALLOW", "")
    else
      match rolesList.lookup ctx.role with
      | none => ("ALLOW", "")
      | some roleCfg =>
        let isConstrained := !roleCfg.allowedTopics.isEmpty || !roleCfg.allowActions.isEmpty
        let domainThreshold :=
          if roleCfg.domainConfidenceThreshold = 0 then (0.6 : ℚ)
          else roleCfg.domainConfidenceThreshold
        let actionThreshold :=
          if roleCfg.actionConfidenceThreshold = 0 then (0.65 : ℚ)
          else roleCfg.actionConfidenceThreshold
        if ctx.analyzerFailed && isConstrained then
          ("DENY", "Analyzer unavailable — fail-closed for constrained role '" ++ ctx.role ++ "'")
        else match roleDomainCheck roleCfg ctx domainThreshold with
        | some d => d
        | none =>
          match roleTopicBlockCheck roleCfg ctx with
          | some d => d
          | none =>
            match roleActionCheck roleCfg ctx isConstrained actionThreshold with
            | some d => d
            | none =>
              if ¬roleCfg.blockIntents.isEmpty ∧ ctx.intent ≠ ""
                  ∧ roleCfg.blockIntents.contains ctx.intent then
                ("DENY", "Intent '" ++ ctx.intent ++ "' explicitly blocked for role '" ++ ctx.role ++ "'")
              else if ctx.intent = "unknown" ∧ isConstrained = true then
                ("DENY", "Unknown intent denied for constrained role '" ++ ctx.role ++ "'")
              else ("ALLOW", "")

/-! ## Request model, signal aggregator and handler pipeline
(`internal/proxy/handler.go`, `internal/analyzer/aggregator.go`) -/

/-- Message of the provider-normalised request. -/
structure LLMMessage where
  role : String
  content : String
deriving DecidableEq, Repr

/-- The provider-normalised request (fields the core reads). -/
structure LLMRequest where
  model : String := ""
  messages : List LLMMessage := []
  stream : Bool := false
deriving DecidableEq, Repr

/-- SignalAggregator: the PII detector is the concrete model above; the
toxicity, injection and capability detectors are abstract pure functions
of the full text (their pattern data is irrelevant to every claim). -/
structure SignalAggregator where
  toxScore : String → ℚ
  injDetect : String → Bool
  capScan : String → List String

/-- Aggregate from `aggregator.go`: one walk over the messages building the
three concatenations (each content followed by one space), all detectors
run over the full text. -/
def SignalAggregator.Aggregate (s : SignalAggregator) (req : LLMRequest) : Signals :=
  if req.messages.isEmpty then {}
  else
    let fullText := req.messages.foldl (fun acc m => acc ++ m.content ++ " ") ""
    let userText :=
      (req.messages.filter (fun m => m.role == "user")).foldl
        (fun acc m => acc ++ m.content ++ " ") ""
    let systemText :=
      (req.messages.filter (fun m => m.role == "system")).foldl
        (fun acc m => acc ++ m.content ++ " ") ""
    { pii := detectPII fullText
      toxicity := s.toxScore fullText
      promptInjection := s.injDetect fullText
      capabilities := s.capScan fullText
      userText := userText
      systemText := systemText
      fullText := fullText }

/-- The collaborators the handler closure captures; the sidecar calls are
modelled as pure functions returning `none` on error/non-200, and the
Cedar engine as its decision on the final context.  All collaborators are
modelled as configured (non-nil). -/
structure HandlerEnv where
  providerName : String
  aggregator : SignalAggregator
  heuristic : HeuristicAnalyzer
  sidecarMessages : List LLMMessage → Option IntentSignal
  sidecarText : String → Option IntentSignal
  policyRoles : Option (List (String × RoleConfig))
  cedarAllows : Context → Bool

/-- Result of one sidecar classification attempt in the deep path. -/
structure SidecarStepResult where
  ctx : Context
  failed : Bool
  blocked : Bool
  reason : String

/-- One sidecar classification: on success backfill the action from the
canonical map when absent, attach under the given role and record the
sidecar's own block verdict; on error mark the failure. -/
def sidecarStep (c : Context) (res : Option IntentSignal) (role : String) : SidecarStepResult :=
  match res with
  | none => ⟨c, true, false, ""⟩
  | some sig =>
      let sig' := if sig.action = "" then { sig with action := ActionForIntent sig.intent } else sig
      ⟨c.AttachIntent sig' role, false, sig'.sidecarDecision == "block", sig'.sidecarReason⟩

/-- Result of the intent-classification phase of the handler. -/
structure IntentPhaseResult where
  ctx : Context
  sidecarPathTaken : Bool
  sidecarBlocked : Bool
  sidecarBlockReason : String

/-- The deep path of handler step 2: the two sidecar classifications
(conversation window, then user text), sidecar-block bookkeeping (the
user-specific verdict takes precedence), the fail-closed `unknown` default
when both calls failed and no intent was attached, and the heuristic
domain backfill. -/
def deepPath (env : HandlerEnv) (req : LLMRequest) (c : Context) : IntentPhaseResult :=
  let s1 :=
    if req.messages.isEmpty then ⟨c, false, false, ""⟩
    else sidecarStep c (env.sidecarMessages req.messages) "aggregate"
  let s2 :=
    if s1.ctx.signals.userText = "" then ⟨s1.ctx, false, false, ""⟩
    else sidecarStep s1.ctx (env.sidecarText s1.ctx.signals.userText) "user"
  let blocked := s1.blocked || s2.blocked
  let reason := if s2.blocked then s2.reason else if s1.blocked then s1.reason else ""
  let intentFailed := s1.failed || s2.failed
  let c3 :=
    if intentFailed && (s2.ctx.intent == "") then
      { s2.ctx with intent := "unknown", userIntent := "unknown",
                    confidence := 0.5, riskScore := 0.5, analyzerFailed := true }
    else s2.ctx
  let c4 :=
    if c3.domain == "" && c3.signals.userText != "" then
      let d := DetectTopic env.heuristic.topics c3.signals.userText
      if d != "" then { c3 with domain := d, domainConfidence := 0.90 } else c3
    else c3
  ⟨c4, true, blocked, reason⟩

/-- Handler step 2: the heuristic fast path (domain always propagated, the
sidecar bypassed exactly when the heuristic yields a non-empty intent),
falling back to the deep path. -/
def intentPhase (env : HandlerEnv) (req : LLMRequest) (c : Context) : IntentPhaseResult :=
  let fastSig :=
    if c.signals.userText ≠ "" then env.heuristic.AnalyzeWithDomain c.signals.userText
    else none
  match fastSig with
  | some s =>
      let cd :=
        if s.domain ≠ "" then { c with domain := s.domain, domainConfidence := s.domainConfidence }
        else c
      if s.intent ≠ "" then ⟨cd.AttachIntent s "user", false, false, ""⟩
      else deepPath env req cd
  | none => deepPath env req c

/-- Outcome of a handled chat request, as observable at the HTTP surface:
the three pre-forward denial classes (each a 403 with its error code), or
a forward to the provider together with whether the Cedar engine was
evaluated before forwarding. -/
inductive ProxyOutcome where
  | deniedSidecar (reason : String)
  | deniedRole (reason : String)
  | deniedCedar
  | forwarded (cedarEvaluated : Bool)
deriving DecidableEq, Repr

/-- Handler steps 5–6: Cedar evaluation of the final context; DENY is a
403 `guardrail_blocked`, ALLOW forwards. -/
def cedarStage (env : HandlerEnv) (ctx : Context) : ProxyOutcome :=
  if env.cedarAllows ctx then .forwarded true else .deniedCedar

/-- Handler steps 3–4 on a parsed request: the context built from the
provider name and the two request headers, with the aggregated
deterministic signals and the fast-path topic attached. -/
def buildBaseContext (env : HandlerEnv) (req : LLMRequest)
    (roleHeader sensHeader : String) : Context :=
  let ctx0 : Context := { provider := env.providerName, resourceSensitivity := "public" }
  let ctx1 := if sensHeader ≠ "" then { ctx0 with resourceSensitivity := sensHeader } else ctx0
  let ctx2 := if roleHeader ≠ "" then { ctx1 with role := roleHeader } else ctx1
  let ctx3 := { ctx2 with signals := env.aggregator.Aggregate req }
  if ctx3.signals.userText ≠ "" then
    let topic := DetectTopic env.heuristic.topics ctx3.signals.userText
    if topic ≠ "" then { ctx3 with signals := { ctx3.signals with topic := topic } } else ctx3
  else ctx3

/-- The handler pipeline for one request whose body was read successfully:
parse via the provider adapter (`none` = parse failure), build the
context from the headers, aggregate deterministic signals, fast-path
topic, intent classification, sidecar-block enforcement, role pre-gate,
Cedar.  When parsing fails the entire signal/policy block is skipped and
the raw body is forwarded. -/
def runHandler (env : HandlerEnv) (parsedReq : Option LLMRequest)
    (roleHeader sensHeader : String) : ProxyOutcome :=
  match parsedReq with
  | none => .forwarded false
  | some req =>
    let ip := intentPhase env req (buildBaseContext env req roleHeader sensHeader)
    if ip.sidecarBlocked then .deniedSidecar ip.sidecarBlockReason
    else if ip.ctx.role ≠ "" ∧ env.policyRoles.isSome then
      if (enforceRolePolicy env.policyRoles ip.ctx).1 = "DENY" then
        .deniedRole (enforceRolePolicy env.policyRoles ip.ctx).2
      else cedarStage env ip.ctx
    else cedarStage env ip.ctx

/-! ## Claim theorems over the pipeline -/

/-- C1: contrary to the claim, a parse failure of the provider adapter
skips the entire signal-generation and policy block: the request is
forwarded upstream with no Cedar evaluation at all (first conjunct),
whereas every successfully parsed request is never forwarded without the
engine having run (second conjunct). -/
theorem C1_parse_failure_bypasses_policy :
    (∀ (env : HandlerEnv) (roleH sensH : String),
        runHandler env none roleH sensH = .forwarded false)
    ∧ ∀ (env : HandlerEnv) (req : LLMRequest) (roleH sensH : String),
        runHandler env (some req) roleH sensH ≠ .forwarded false := by
  constructor
  · intro env roleH sensH
    rfl
  · intro env req roleH sensH
    unfold runHandler cedarStage
    dsimp only
    repeat' split
    all_goals simp

theorem kwMatch_empty_text (kw : String) : kwMatch kw "" = false := rfl

theorem topicCount_empty_text (kws : List String) : topicCount kws "" = 0 := by
  unfold topicCount
  have h : ∀ kw, kwMatch kw "" = false := fun _ => rfl
  simp [h]

theorem detectTopic_of_trim_empty (topics : List (String × List String)) (text : String)
    (h : trimStr text = "") : DetectTopic topics text = "" := by
  unfold DetectTopic
  dsimp only
  rw [h]
  have key : ∀ (l : List (String × List String)) (best : String × Nat),
      l.foldl
        (fun (best : String × Nat) t =>
          let matchCount := topicCount t.2 ""
          if matchCount > best.2 then (t.1, matchCount) else best)
        best = best := by
    intro l
    induction l with
    | nil => intro best; rfl
    | cons p rest ih =>
      intro best
      rw [List.foldl_cons]
      have : (let matchCount := topicCount p.2 ""
              if matchCount > best.2 then (p.1, matchCount) else best) = best := by
        dsimp only
        rw [topicCount_empty_text]
        simp
      rw [this]
      exact ih best
  rw [key]

theorem analyze_whitespace (h : HeuristicAnalyzer) (text : String)
    (hws : trimStr text = "") :
    h.Analyze text = some { intent := "unknown", confidence := 1, action := "" } := by
  unfold HeuristicAnalyzer.Analyze
  dsimp only
  rw [hws]
  simp

theorem analyzeWithDomain_whitespace (h : HeuristicAnalyzer) (text : String)
    (hws : trimStr text = "") :
    h.AnalyzeWithDomain text = some { intent := "unknown", confidence := 1, action := "" } := by
  unfold HeuristicAnalyzer.AnalyzeWithDomain
  dsimp only
  rw [analyze_whitespace h text hws, detectTopic_of_trim_empty h.topics text hws]
  simp

theorem attachIntent_confidence_of_empty (c : Context) (sig : IntentSignal) (role : String)
    (hc : c.intent = "") :
    (c.AttachIntent sig role).confidence = sig.confidence := by
  unfold Context.AttachIntent
  dsimp only
  rw [setRoleIntent_intent]
  split
  · rfl
  · next h => exact absurd (Or.inr hc) h

/-- C9: when the concatenated user text is non-empty but all whitespace,
the heuristic analyzer returns the `unknown`/1.0 signal, the handler
treats it as a confident intent match and skips the sidecar path
entirely, and the context ends with intent `unknown`, confidence 1.0 and
risk score 1.0 (the handler reaches this phase with a freshly built
context whose intent is still empty, which the `hc` hypothesis records). -/
theorem C9_whitespace_user_text (env : HandlerEnv) (req : LLMRequest) (c : Context)
    (hne : c.signals.userText ≠ "") (hws : trimStr c.signals.userText = "")
    (hc : c.intent = "") :
    env.heuristic.Analyze c.signals.userText
        = some { intent := "unknown", confidence := 1, action := "" }
    ∧ (intentPhase env req c).sidecarPathTaken = false
    ∧ (intentPhase env req c).ctx.intent = "unknown"
    ∧ (intentPhase env req c).ctx.confidence = 1
    ∧ (intentPhase env req c).ctx.riskScore = 1 := by
  have hfast := analyzeWithDomain_whitespace env.heuristic c.signals.userText hws
  have hip : intentPhase env req c
      = ⟨c.AttachIntent { intent := "unknown", confidence := 1, action := "" } "user",
         false, false, ""⟩ := by
    unfold intentPhase
    dsimp only
    rw [if_pos hne, hfast]
    simp
  refine ⟨analyze_whitespace _ _ hws, ?_, ?_, ?_, ?_⟩
  · rw [hip]
  · rw [hip]
    exact attachIntent_intent_of_empty c _ "user" hc
  · rw [hip]
    exact attachIntent_confidence_of_empty c _ "user" hc
  · rw [hip]
    exact attachIntent_riskScore_of_empty c _ "user" hc

/-- C9 witness: a request whose single user message has empty content
yields the concatenated user text `" "` — non-empty whitespace — and the
conclusion at a fully concrete environment. -/
theorem C9_witness :
    letI env : HandlerEnv :=
      { providerName := "openai"
        aggregator := { toxScore := fun _ => 0, injDetect := fun _ => false, capScan := fun _ => [] }
        heuristic := { greeter := fun _ => false, exploit := fun _ => false,
                       sysCtrl := fun _ => false, topics := [] }
        sidecarMessages := fun _ => none
        sidecarText := fun _ => none
        policyRoles := none
        cedarAllows := fun _ => true }
    letI req : LLMRequest := { messages := [{ role := "user", content := "" }] }
    letI c : Context := { signals := env.aggregator.Aggregate req }
    c.signals.userText = " "
    ∧ (env.heuristic.Analyze c.signals.userText
        = some { intent := "unknown", confidence := 1, action := "" }
      ∧ (intentPhase env req c).sidecarPathTaken = false
      ∧ (intentPhase env req c).ctx.intent = "unknown"
      ∧ (intentPhase env req c).ctx.confidence = 1
      ∧ (intentPhase env req c).ctx.riskScore = 1) :=
  ⟨rfl, C9_whitespace_user_text _ _ _ (by decide) (by decide) rfl⟩

theorem setRoleIntent_role (c : Context) (sig : IntentSignal) (role : String) :
    (c.setRoleIntent sig role).role = c.role := by
  unfold Context.setRoleIntent; split <;> [rfl; split <;> rfl]

theorem attachIntent_role (c : Context) (sig : IntentSignal) (role : String) :
    (c.AttachIntent sig role).role = c.role := by
  unfold Context.AttachIntent
  dsimp only
  split
  · exact setRoleIntent_role c sig role
  · exact setRoleIntent_role c sig role

theorem sidecarStep_role (c : Context) (res : Option IntentSignal) (role : String) :
    (sidecarStep c res role).ctx.role = c.role := by
  unfold sidecarStep
  cases res with
  | none => rfl
  | some sig =>
      dsimp only
      exact attachIntent_role c _ role

theorem deepPath_role (env : HandlerEnv) (req : LLMRequest) (c : Context) :
    (deepPath env req c).ctx.role = c.role := by
  unfold deepPath
  dsimp only
  repeat' split
  all_goals simp_all [sidecarStep_role]

theorem intentPhase_role (env : HandlerEnv) (req : LLMRequest) (c : Context) :
    (intentPhase env req c).ctx.role = c.role := by
  unfold intentPhase
  dsimp only
  repeat' split
  all_goals simp_all [deepPath_role, attachIntent_role]

theorem buildBaseContext_role (env : HandlerEnv) (req : LLMRequest)
    (roleH sensH : String) (h : roleH ≠ "") :
    (buildBaseContext env req roleH sensH).role = roleH := by
  unfold buildBaseContext
  dsimp only
  rw [if_pos h]
  repeat' split
  all_goals rfl

/-- C10: a non-empty role header that is not a key of the loaded policy's
roles table makes the role pre-gate return ALLOW regardless of the rest of
the context (no check is performed), and such a request always proceeds to
the Cedar engine: the pipeline never answers `role_policy_blocked` for it
and never forwards without having evaluated the engine. -/
theorem C10_unknown_role_unconstrained (rolesList : List (String × RoleConfig))
    (roleH : String) (hrole : roleH ≠ "") (hmiss : rolesList.lookup roleH = none) :
    (∀ ctx : Context, ctx.role = roleH → enforceRolePolicy (some rolesList) ctx = ("ALLOW", ""))
    ∧ ∀ env : HandlerEnv, env.policyRoles = some rolesList →
        ∀ (req : LLMRequest) (sensH r : String),
          runHandler env (some req) roleH sensH ≠ .deniedRole r
          ∧ runHandler env (some req) roleH sensH ≠ .forwarded false := by
  have gate : ∀ ctx : Context, ctx.role = roleH →
      enforceRolePolicy (some rolesList) ctx = ("ALLOW", "") := by
    intro ctx hctx
    simp only [enforceRolePolicy, hctx]
    rw [if_neg hrole, hmiss]
  refine ⟨gate, ?_⟩
  intro env hpol req sensH r
  have hrole4 : (intentPhase env req (buildBaseContext env req roleH sensH)).ctx.role = roleH := by
    rw [intentPhase_role]
    exact buildBaseContext_role env req roleH sensH hrole
  unfold runHandler
  dsimp only
  rw [hpol]
  constructor <;>
  · split
    · simp
    · split
      · split
        · next hdeny =>
            rw [gate _ hrole4] at hdeny
            simp at hdeny
        · unfold cedarStage
          split <;> simp
      · unfold cedarStage
        split <;> simp

/-- C10 witness: the unknown role `ghost` (the loaded policy only
constrains `recruiter`) passes the gate on a context that would fail every
check, and the pipeline reaches Cedar. -/
theorem C10_witness :
    letI rolesList : List (String × RoleConfig) :=
      [("recruiter", { allowedTopics := ["recruitment"], allowActions := ["query"] })]
    letI env : HandlerEnv :=
      { providerName := "openai"
        aggregator := { toxScore := fun _ => 0, injDetect := fun _ => false, capScan := fun _ => [] }
        heuristic := { greeter := fun _ => false, exploit := fun _ => false,
                       sysCtrl := fun _ => false, topics := [] }
        sidecarMessages := fun _ => none
        sidecarText := fun _ => none
        policyRoles := some rolesList
        cedarAllows := fun _ => true }
    letI ctx : Context := { role := "ghost", intent := "unknown", analyzerFailed := true }
    letI req : LLMRequest := { messages := [{ role := "user", content := "hello" }] }
    enforceRolePolicy (some rolesList) ctx = ("ALLOW", "")
      ∧ runHandler env (some req) "ghost" "" ≠ .deniedRole "r"
      ∧ runHandler env (some req) "ghost" "" ≠ .forwarded false :=
  letI rolesList : List (String × RoleConfig) :=
    [("recruiter", { allowedTopics := ["recruitment"], allowActions := ["query"] })]
  ⟨(C10_unknown_role_unconstrained rolesList "ghost" (by decide) rfl).1 _ rfl,
   ((C10_unknown_role_unconstrained rolesList "ghost" (by decide) rfl).2 _ rfl _ "" "r").1,
   ((C10_unknown_role_unconstrained rolesList "ghost" (by decide) rfl).2 _ rfl _ "" "r").2⟩

/-! ## Cedar evaluation input (`internal/cedar/engine.go`,
`EvaluateContextWithResult`) -/

/-- Go's `int64(x)` conversion of a float: truncation toward zero. -/
def goTruncInt (q : ℚ) : Int := if 0 ≤ q then ⌊q⌋ else ⌈q⌉

/-- Cedar values as the engine constructs them. -/
inductive CedarValue where
  | str (s : String)
  | long (i : Int)
  | bool (b : Bool)
  | set (vs : List CedarValue)
  | record (fields : List (String × CedarValue))
deriving Repr

/-- Equality on the primitive Cedar values; the compiled predicates only
ever compare strings, longs and booleans, so the structured cases (whose
Cedar semantics is set/record equality) never arise and are mapped to
`false`. -/
def CedarValue.beqPrim : CedarValue → CedarValue → Bool
  | .str a, .str b => a == b
  | .long a, .long b => a == b
  | .bool a, .bool b => a == b
  | _, _ => false

/-- The context record the engine passes to `cedar.Authorize`, transcribed
key by key from `EvaluateContextWithResult` (floats become percent longs
via `int64(x*100)`; the resource `sensitivity` attribute lives on the
entity, not here). -/
def evalContextRecord (ctx : Context) : List (String × CedarValue) :=
  [("intent", .str ctx.intent),
   ("user_intent", .str ctx.userIntent),
   ("system_intent", .str ctx.systemIntent),
   ("risk_score", .long (goTruncInt (ctx.riskScore * 100))),
   ("confidence", .long (goTruncInt (ctx.confidence * 100))),
   ("pii", .set (ctx.signals.pii.map CedarValue.str)),
   ("toxicity", .long (goTruncInt (ctx.signals.toxicity * 100))),
   ("prompt_injection", .bool ctx.signals.promptInjection),
   ("topic", .str ctx.signals.topic),
   ("capabilities", .set (ctx.signals.capabilities.map CedarValue.str)),
   ("streaming", .bool ctx.request.streaming),
   ("tokens", .long ctx.request.tokens),
   ("provider", .str ctx.provider),
   ("agent_state", .record
      [("current_step", .long ctx.agentState.currentStep),
       ("max_steps", .long ctx.agentState.maxSteps),
       ("total_tokens", .long ctx.agentState.totalTokens),
       ("token_budget", .long ctx.agentState.tokenBudget)]),
   ("source_data", .record
      [("origin", .str ctx.sourceData.origin),
       ("trusted", .bool ctx.sourceData.trusted)])]

/-- The fragment of Cedar predicate expressions the compiled role rules
use: context-attribute access, string literals, equality, boolean
connectives. -/
inductive CedarExpr where
  | attr (name : String)
  | litStr (s : String)
  | eq (a b : CedarExpr)
  | and (a b : CedarExpr)
  | or (a b : CedarExpr)
  | not (a : CedarExpr)

/-- Cedar evaluation over the context record with error semantics: a
reference to a missing attribute is an error (`none`), errors propagate,
and an errored rule is treated as not matching. -/
def evalExpr (rec : List (String × CedarValue)) : CedarExpr → Option CedarValue
  | .attr n => rec.lookup n
  | .litStr s => some (.str s)
  | .eq a b =>
      match evalExpr rec a, evalExpr rec b with
      | some va, some vb => some (.bool (CedarValue.beqPrim va vb))
      | _, _ => none
  | .and a b =>
      match evalExpr rec a with
      | some (.bool false) => some (.bool false)
      | some (.bool true) =>
          match evalExpr rec b with
          | some (.bool vb) => some (.bool vb)
          | _ => none
      | _ => none
  | .or a b =>
      match evalExpr rec a with
      | some (.bool true) => some (.bool true)
      | some (.bool false) =>
          match evalExpr rec b with
          | some (.bool vb) => some (.bool vb)
          | _ => none
      | _ => none
  | .not a =>
      match evalExpr rec a with
      | some (.bool v) => some (.bool !v)
      | _ => none

/-- A rule fires iff its predicate evaluates to `true` (errors do not
match). -/
def ruleSatisfied (e : CedarExpr) (rec : List (String × CedarValue)) : Bool :=
  match evalExpr rec e with
  | some (.bool true) => true
  | _ => false

/-- The predicate shape `compileRoles` emits for every role rule:
`context.role == "<name>" && <rest>`. -/
def roleRulePredicate (name : String) (rest : CedarExpr) : CedarExpr :=
  .and (.eq (.attr "role") (.litStr name)) rest

/-- C2 counterexample: the evaluation context record built for a request
bearing role `recruiter` has no `role` key at all, and the compiled role
rule predicate `role == "recruiter" && …` is not satisfied even for that
request. -/
theorem C2_counterexample :
    letI ctx : Context := { role := "recruiter", intent := "info.query" }
    ctx.role = "recruiter"
      ∧ ((evalContextRecord ctx).lookup "role").isNone = true
      ∧ ruleSatisfied (roleRulePredicate "recruiter" (.litStr "rest"))
          (evalContextRecord ctx) = false :=
  ⟨rfl, rfl, rfl⟩

/-- C2 (amended): the engine's context record exposes exactly the fifteen
keys intent, user_intent, system_intent, risk_score, confidence, pii,
toxicity, prompt_injection, topic, capabilities, streaming, tokens,
provider, agent_state and source_data — `role` is not among them, so a
compiled role rule whose predicate conjoins `role == "<role>"` never
fires for any request; role enforcement happens in the Go pre-gate
instead. -/
theorem C2_role_absent_from_cedar_context (ctx : Context) :
    (evalContextRecord ctx).map Prod.fst
      = ["intent", "user_intent", "system_intent", "risk_score", "confidence",
         "pii", "toxicity", "prompt_injection", "topic", "capabilities",
         "streaming", "tokens", "provider", "agent_state", "source_data"]
    ∧ ∀ (name : String) (rest : CedarExpr),
        ruleSatisfied (roleRulePredicate name rest) (evalContextRecord ctx) = false :=
  ⟨rfl, fun _ _ => rfl⟩

/-! ## Policy compiler (`internal/policy/compiler.go`)

The authoring document's Go maps (`intents`, `user_intent_overrides`,
`source_trust`, `roles`) are modelled as association lists whose order
stands for Go's randomised map iteration order; the slice-valued sections
keep their order.  Literal braces of the emitted Cedar text are written
`\x7b`/`\x7d`. -/

/-- SafetyConfig from `internal/policy/types.go`. -/
structure SafetyConfig where
  promptInjection : String := ""
  toxicityThreshold : ℚ := 0
  maxRiskScore : ℚ := 0
deriving DecidableEq, Repr

/-- PIIConfig from `internal/policy/types.go`. -/
structure PIIConfig where
  block : List String := []
  redact : List String := []
deriving DecidableEq, Repr

/-- CapabilitiesConfig from `internal/policy/types.go`. -/
structure CapabilitiesConfig where
  block : List String := []
deriving DecidableEq, Repr

/-- IntentCondition from `internal/policy/types.go`. -/
structure IntentCondition where
  sensitivity : String := ""
deriving DecidableEq, Repr

/-- IntentRule from `internal/policy/types.go` (`whenCond` models the
optional `when:` condition pointer). -/
structure IntentRule where
  action : String := ""
  threshold : Int := 0
  whenCond : Option IntentCondition := none
deriving DecidableEq, Repr

/-- IntentOverride from `internal/policy/types.go`. -/
structure IntentOverride where
  threshold : Int := 0
deriving DecidableEq, Repr

/-- AgentLimitsConfig from `internal/policy/types.go`. -/
structure AgentLimitsConfig where
  maxSteps : Int := 0
  tokenBudget : Int := 0
  tightenAfterStep : Int := 0
  tightenedThreshold : Int := 0
deriving DecidableEq, Repr

/-- SourceRule from `internal/policy/types.go`. -/
structure SourceRule where
  blockIntents : List String := []
deriving DecidableEq, Repr

/-- GuardrailPolicy from `internal/policy/types.go` (the `topics` table is
not read by `Compile` and is omitted here). -/
structure GuardrailPolicy where
  version : String := ""
  safety : SafetyConfig := {}
  pii : PIIConfig := {}
  capabilities : CapabilitiesConfig := {}
  intents : List (String × IntentRule) := []
  userIntentOverrides : List (String × IntentOverride) := []
  roles : List (String × RoleConfig) := []
  agentLimits : AgentLimitsConfig := {}
  sourceTrust : List (String × SourceRule) := []
deriving DecidableEq, Repr

/-- `compileSectionHeader`. -/
def sectionHeader (num title : String) : String :=
  "// ═══ SECTION " ++ num ++ ": " ++ title ++ " ═══\n"

/-- The shared forbid skeleton of the emitted rules. -/
def forbidWhen (cond : String) : String :=
  "forbid(\n    principal,\n    action == Action::\"chat\",\n    resource\n)\nwhen \x7b\n    "
    ++ cond ++ "\n\x7d;\n\n"

/-- Section 1: the fail-open default permit. -/
def defaultPermitBlock : String :=
  "permit(\n    principal,\n    action == Action::\"chat\",\n    resource\n)\nwhen \x7b\n    context.pii.isEmpty()\n\x7d;\n\n"

/-- `compileSafety`. -/
def safetyBlocks (s : SafetyConfig) : List String :=
  (if s.promptInjection == "block" then [forbidWhen "context.prompt_injection == true"] else [])
  ++ [forbidWhen ("context.toxicity > " ++ toString (goTruncInt (s.toxicityThreshold * 100)))]

/-- One emitted intent-threshold forbid of `compileIntents`. -/
def intentBlock (name : String) (rule : IntentRule) : String :=
  let condParts :=
    ["(context.intent == \"" ++ name ++ "\" || context.user_intent == \"" ++ name ++ "\")",
     "context.confidence > " ++ toString rule.threshold]
  let condParts :=
    match rule.whenCond with
    | some w =>
        if w.sensitivity ≠ "" then
          ("resource.sensitivity == \"" ++ w.sensitivity ++ "\"") :: condParts
        else condParts
    | none => condParts
  "// " ++ name ++ " (threshold: " ++ toString rule.threshold ++ ")\n"
    ++ forbidWhen (String.intercalate " &&\n    " condParts)

/-- `compileIntents`: only `action: block` rules emit forbids, in map
iteration order. -/
def intentsBlocks (intents : List (String × IntentRule)) : List String :=
  (intents.filter (fun p => p.2.action == "block")).map (fun p => intentBlock p.1 p.2)

/-- One emitted stricter user-intent forbid of
`compileUserIntentOverrides`. -/
def overrideBlock (name : String) (o : IntentOverride) : String :=
  "// user_" ++ name ++ " (stricter: " ++ toString o.threshold ++ ")\n"
    ++ forbidWhen ("context.user_intent == \"" ++ name ++ "\" &&\n    context.confidence > "
        ++ toString o.threshold)

/-- `compilePII`: blocked-kind forbid, annotated redact permit, and the
stricter user PII-query forbid. -/
def piiBlocks (piiCfg : PIIConfig) : List String :=
  (if piiCfg.block.isEmpty then [] else
    ["// Block PII: " ++ String.intercalate ", " piiCfg.block ++ "\n"
      ++ forbidWhen (String.intercalate " ||\n    "
           (piiCfg.block.map (fun p => "context.pii.contains(\"" ++ p ++ "\")")))])
  ++ (if piiCfg.redact.isEmpty then [] else
    [let notBlocked :=
        if piiCfg.block.isEmpty then ""
        else " &&\n    !(" ++ String.intercalate " || "
              (piiCfg.block.map (fun p => "context.pii.contains(\"" ++ p ++ "\")")) ++ ")"
     "// Redact PII: " ++ String.intercalate ", " piiCfg.redact ++ "\n"
      ++ "@obligation(\"REDACT\")\n@fields(\"" ++ String.intercalate "," piiCfg.redact ++ "\")\n"
      ++ "permit(\n    principal,\n    action == Action::\"chat\",\n    resource\n)\nwhen \x7b\n    context.pii.containsAny(["
      ++ String.intercalate ", " (piiCfg.redact.map (fun r => "\"" ++ r ++ "\""))
      ++ "])" ++ notBlocked ++ "\n\x7d;\n\n"])
  ++ (if piiCfg.block.isEmpty then [] else
    ["// Block user PII queries\n"
      ++ forbidWhen ("context.user_intent == \"info.query.pii\" &&\n    (context.pii.containsAny(["
           ++ String.intercalate ", " (piiCfg.block.map (fun p => "\"" ++ p ++ "\""))
           ++ "]) || context.confidence > 30)")])

/-- The pairwise grouping of `compileCapabilities` (`i += 2`). -/
def capPairs : List String → List (List String)
  | [] => []
  | [a] => [[a]]
  | a :: b :: rest => [a, b] :: capPairs rest

/-- `compileCapabilities`. -/
def capBlocks (cfg : CapabilitiesConfig) : List String :=
  if cfg.block.isEmpty then []
  else (capPairs cfg.block).map (fun pair =>
    forbidWhen (String.intercalate " ||\n    "
      (pair.map (fun c => "context.capabilities.contains(\"" ++ c ++ "\")"))))

/-- `compileFailSafe`. -/
def failSafeBlock (s : SafetyConfig) : String :=
  forbidWhen ("context.risk_score > " ++ toString (goTruncInt (s.maxRiskScore * 100))
    ++ " &&\n    context.intent != \"conv.greeting\" &&\n    context.intent != \"conv.other\" &&\n    context.intent != \"info.query\" &&\n    context.intent != \"info.summarize\"")

/-- `compileAgentLimits`. -/
def agentBlocks (al : AgentLimitsConfig) : List String :=
  ["// Step budget enforcement\n"
    ++ forbidWhen "context.agent_state.max_steps > 0 &&\n    context.agent_state.current_step > context.agent_state.max_steps",
   "// Token budget enforcement\n"
    ++ forbidWhen "context.agent_state.token_budget > 0 &&\n    context.agent_state.total_tokens > context.agent_state.token_budget"]
  ++ (if al.tightenAfterStep > 0 then
      ["// Tighten thresholds after step " ++ toString al.tightenAfterStep ++ "\n"
        ++ forbidWhen ("context.agent_state.current_step > " ++ toString al.tightenAfterStep
             ++ " &&\n    (context.intent == \"file.write\" || context.intent == \"sys.control\") &&\n    context.confidence > "
             ++ toString al.tightenedThreshold)]
    else [])

/-- One source's emitted forbid of `compileSourceTrust` (none when its
block list is empty). -/
def sourceBlock (source : String) (rule : SourceRule) : List String :=
  if rule.blockIntents.isEmpty then []
  else
    let intentChecks := String.intercalate " || "
      (rule.blockIntents.map (fun i => "context.intent == \"" ++ i ++ "\""))
    let trustedCheck :=
      if source == "untrusted_web" then
        "    context.source_data.trusted == false &&\n    context.source_data.origin == \""
          ++ source ++ "\" &&\n"
      else
        "    context.source_data.origin == \"" ++ source ++ "\" &&\n"
    ["// Source: " ++ source ++ "\n"
      ++ "forbid(\n    principal,\n    action == Action::\"chat\",\n    resource\n)\nwhen \x7b\n"
      ++ trustedCheck ++ "    (" ++ intentChecks ++ ")\n\x7d;\n\n"]

/-- The up-to-four forbids `compileRoles` emits for one role. -/
def roleBlocks (name : String) (role : RoleConfig) : List String :=
  (if role.allowIntents.isEmpty then [] else
    ["// Role: " ++ name ++ " — " ++ role.description ++ "\n// Block any intent not in allowlist\n"
      ++ forbidWhen ("context.role == \"" ++ name ++ "\" &&\n    !("
           ++ String.intercalate " || \n      "
                (role.allowIntents.map (fun i => "context.intent == \"" ++ i ++ "\"")) ++ ")")])
  ++ (if role.blockIntents.isEmpty then [] else
    ["// Role: " ++ name ++ " — explicit blocks\n"
      ++ forbidWhen ("context.role == \"" ++ name ++ "\" &&\n    ("
           ++ String.intercalate " || "
                (role.blockIntents.map (fun i => "context.intent == \"" ++ i ++ "\"")) ++ ")")])
  ++ (if role.allowedTopics.isEmpty then [] else
    ["// Role: " ++ name ++ " — topic allowlist\n"
      ++ forbidWhen ("context.role == \"" ++ name ++ "\" &&\n    context.topic != \"\" &&\n    !("
           ++ String.intercalate " || "
                (role.allowedTopics.map (fun t => "context.topic == \"" ++ t ++ "\"")) ++ ")")])
  ++ (if role.blockTopics.isEmpty then [] else
    ["// Role: " ++ name ++ " — explicit topic blocks\n"
      ++ forbidWhen ("context.role == \"" ++ name ++ "\" &&\n    ("
           ++ String.intercalate " || "
                (role.blockTopics.map (fun t => "context.topic == \"" ++ t ++ "\"")) ++ ")")])

/-- The header comment of `Compile` (the only part the spec exempts from
byte-identity). -/
def compileHeader (p : GuardrailPolicy) : String :=
  "// Auto-generated from guardrail.yaml — DO NOT EDIT DIRECTLY\n// Policy version: "
    ++ p.version ++ "\n\n"

/-- The emitted text of `Compile` after the header, as the ordered list of
written chunks (section headers and rule blocks). -/
def compileBlocks (p : GuardrailPolicy) : List String :=
  [sectionHeader "1" "FAIL-OPEN DEFAULT", defaultPermitBlock]
  ++ [sectionHeader "2" "GLOBAL SAFETY"] ++ safetyBlocks p.safety
  ++ [sectionHeader "3" "INTENT RISK CONTROLS"] ++ intentsBlocks p.intents
  ++ (if p.userIntentOverrides.isEmpty then [] else
      "// User-intent stricter thresholds\n"
        :: p.userIntentOverrides.map (fun q => overrideBlock q.1 q.2))
  ++ [sectionHeader "4" "PII CONTROLS"] ++ piiBlocks p.pii
  ++ [sectionHeader "5" "CAPABILITY CONTROLS"] ++ capBlocks p.capabilities
  ++ [sectionHeader "6" "FAIL-SAFE CATCH-ALL", failSafeBlock p.safety]
  ++ [sectionHeader "7" "AGENTIC WORKFLOW CONTROLS"] ++ agentBlocks p.agentLimits
  ++ (if p.sourceTrust.isEmpty then [] else
      "// Source trust restrictions\n"
        :: p.sourceTrust.flatMap (fun q => sourceBlock q.1 q.2))
  ++ (if p.roles.isEmpty then [] else
      sectionHeader "8" "ROLE-BASED GUARDRAILS"
        :: p.roles.flatMap (fun q => roleBlocks q.1 q.2))

/-- Sequential concatenation of the written chunks (the
`strings.Builder`). -/
def joinAll : List String → String
  | [] => ""
  | s :: rest => s ++ joinAll rest

/-- Compile from `compiler.go`: the full emitted Cedar policy text. -/
def Compile (p : GuardrailPolicy) : String :=
  compileHeader p ++ joinAll (compileBlocks p)

theorem joinAll_append (xs ys : List String) :
    joinAll (xs ++ ys) = joinAll xs ++ joinAll ys := by
  induction xs with
  | nil => simp [joinAll]
  | cons a xs ih => simp [joinAll, ih, String.append_assoc]

/-- C3 counterexample: the same two-intent authoring document compiled
under the two enumeration orders of its `intents` map (Go randomises map
iteration order between runs) yields texts that differ beyond the header:
the two intent forbids appear in swapped order. -/
theorem C3_counterexample :
    letI r1 : IntentRule := { action := "block", threshold := 40 }
    letI r2 : IntentRule := { action := "block", threshold := 50 }
    letI p1 : GuardrailPolicy :=
      { version := "v1", intents := [("code.exploit", r1), ("sys.control", r2)] }
    letI p2 : GuardrailPolicy :=
      { version := "v1", intents := [("sys.control", r2), ("code.exploit", r1)] }
    p1.intents.Perm p2.intents
      ∧ compileHeader p1 = compileHeader p2
      ∧ Compile p1 ≠ Compile p2 := by
  refine ⟨by decide, rfl, ?_⟩
  intro h
  have hd := congrArg String.data h
  simp only [Compile, compileHeader, compileBlocks, sectionHeader, defaultPermitBlock,
    safetyBlocks, intentsBlocks, intentBlock, piiBlocks, capPairs, capBlocks,
    failSafeBlock, agentBlocks, forbidWhen, joinAll, List.filter, List.map,
    List.isEmpty_nil, List.flatMap, String.data_append, List.append_assoc] at hd
  repeat replace hd := List.append_cancel_left hd
  have h0 := congrArg (fun l => l.get? 0) hd
  have hL : ∀ x : List Char, (("code.exploit".data ++ x).get? 0) = some 'c' := fun _ => rfl
  have hR : ∀ x : List Char, (("sys.control".data ++ x).get? 0) = some 's' := fun _ => rfl
  simp only [hL, hR] at h0
  exact absurd (Option.some.inj h0) (by decide)

/-- C3 (amended): compilation of the same authoring document always emits
the same multiset of rule blocks with an identical header; byte-identical
output is guaranteed only per fixed enumeration order of the document's
maps — Go's randomised map iteration can permute the rules within the
intents, user-intent-overrides, source-trust and roles sections between
two invocations (and the counterexample shows it does change the bytes). -/
theorem C3_compile_rule_multiset (p1 p2 : GuardrailPolicy)
    (hv : p1.version = p2.version) (hs : p1.safety = p2.safety)
    (hp : p1.pii = p2.pii) (hcap : p1.capabilities = p2.capabilities)
    (hal : p1.agentLimits = p2.agentLimits)
    (hi : p1.intents.Perm p2.intents)
    (hu : p1.userIntentOverrides.Perm p2.userIntentOverrides)
    (hst : p1.sourceTrust.Perm p2.sourceTrust)
    (hr : p1.roles.Perm p2.roles) :
    compileHeader p1 = compileHeader p2
      ∧ (compileBlocks p1).Perm (compileBlocks p2) := by
  constructor
  · unfold compileHeader
    rw [hv]
  · have hu' : (if p1.userIntentOverrides.isEmpty then ([] : List String) else
        "// User-intent stricter thresholds\n"
          :: p1.userIntentOverrides.map (fun q => overrideBlock q.1 q.2)).Perm
        (if p2.userIntentOverrides.isEmpty then [] else
        "// User-intent stricter thresholds\n"
          :: p2.userIntentOverrides.map (fun q => overrideBlock q.1 q.2)) := by
      by_cases h2 : p2.userIntentOverrides = []
      · have h1 : p1.userIntentOverrides = [] := (h2 ▸ hu).eq_nil
        rw [h1, h2]
      · have h1 : ¬p1.userIntentOverrides = [] := fun e => h2 ((e ▸ hu).symm.eq_nil)
        rw [if_neg (fun hh => h1 (List.isEmpty_iff.mp hh)),
            if_neg (fun hh => h2 (List.isEmpty_iff.mp hh))]
        exact (hu.map _).cons _
    have hst' : (if p1.sourceTrust.isEmpty then ([] : List String) else
        "// Source trust restrictions\n"
          :: p1.sourceTrust.flatMap (fun q => sourceBlock q.1 q.2)).Perm
        (if p2.sourceTrust.isEmpty then [] else
        "// Source trust restrictions\n"
          :: p2.sourceTrust.flatMap (fun q => sourceBlock q.1 q.2)) := by
      by_cases h2 : p2.sourceTrust = []
      · have h1 : p1.sourceTrust = [] := (h2 ▸ hst).eq_nil
        rw [h1, h2]
      · have h1 : ¬p1.sourceTrust = [] := fun e => h2 ((e ▸ hst).symm.eq_nil)
        rw [if_neg (fun hh => h1 (List.isEmpty_iff.mp hh)),
            if_neg (fun hh => h2 (List.isEmpty_iff.mp hh))]
        exact (hst.flatMap_right _).cons _
    have hr' : (if p1.roles.isEmpty then ([] : List String) else
        sectionHeader "8" "ROLE-BASED GUARDRAILS"
          :: p1.roles.flatMap (fun q => roleBlocks q.1 q.2)).Perm
        (if p2.roles.isEmpty then [] else
        sectionHeader "8" "ROLE-BASED GUARDRAILS"
          :: p2.roles.flatMap (fun q => roleBlocks q.1 q.2)) := by
      by_cases h2 : p2.roles = []
      · have h1 : p1.roles = [] := (h2 ▸ hr).eq_nil
        rw [h1, h2]
      · have h1 : ¬p1.roles = [] := fun e => h2 ((e ▸ hr).symm.eq_nil)
        rw [if_neg (fun hh => h1 (List.isEmpty_iff.mp hh)),
            if_neg (fun hh => h2 (List.isEmpty_iff.mp hh))]
        exact (hr.flatMap_right _).cons _
    unfold compileBlocks intentsBlocks
    rw [hs, hp, hcap, hal]
    refine List.Perm.append (List.Perm.append (List.Perm.append (List.Perm.append
      (List.Perm.append (List.Perm.append (List.Perm.append (List.Perm.append
      (List.Perm.append (List.Perm.append (List.Perm.append (List.Perm.append
      (List.Perm.append (List.Perm.append ?h1 ?h2) ?h3) ?h4) ?h5) ?h6) ?h7) ?h8)
      ?h9) ?h10) ?h11) ?h12) ?h13) ?h14) ?h15
    exacts [List.Perm.refl _, List.Perm.refl _, List.Perm.refl _, List.Perm.refl _,
      List.Perm.map _ (List.Perm.filter _ hi), hu', List.Perm.refl _, List.Perm.refl _,
      List.Perm.refl _, List.Perm.refl _, List.Perm.refl _, List.Perm.refl _,
      List.Perm.refl _, hst', hr']

/-- C3 witness: the amended invariance evaluated at the concrete
two-intent document and its two map-enumeration orders. -/
theorem C3_witness :
    letI p1 : GuardrailPolicy :=
      { version := "v1",
        intents := [("code.exploit", { action := "block", threshold := 40 }),
                    ("sys.control", { action := "block", threshold := 50 })] }
    letI p2 : GuardrailPolicy :=
      { version := "v1",
        intents := [("sys.control", { action := "block", threshold := 50 }),
                    ("code.exploit", { action := "block", threshold := 40 })] }
    compileHeader p1 = compileHeader p2 ∧ (compileBlocks p1).Perm (compileBlocks p2) :=
  C3_compile_rule_multiset _ _ rfl rfl rfl rfl rfl (by decide)
    (List.Perm.refl _) (List.Perm.refl _) (List.Perm.refl _)

end Guardrail
